import Mathlib

/-!
Shallow embedding of the `file2ofx` column-role inference engine and OFX
statement generator (`src/file2ofx/core/detector.py`,
`src/file2ofx/core/parser.py`, `src/file2ofx/core/ofx_generator.py`).

Strings are modelled as `List Char` (Python `str` values over Unicode
scalar code points).  Python-side text operations (`str.strip`,
`str.lower`, `re` matching on the fixed literal patterns used by the
program) are modelled on ASCII, which covers every character the detector
patterns, role names and format strings contain.  Machine floats appearing
in the source (`float(...)` conversions and the `> 0.7`/`0.6`/`0.5`/`0.3`
threshold comparisons) are modelled with exact integer arithmetic; a
comment at each site records why this is faithful for the inputs the
program can produce there.
-/

namespace File2Ofx

/-- Model of a Python `str` value: the list of its Unicode scalar values. -/
abbrev Chars := List Char

/-- ASCII decimal digit test, modelling the regex class `\d` on the ASCII
range (the program only ever feeds it characters read from text files; the
detector patterns themselves are ASCII). -/
def isDigitChar (c : Char) : Bool :=
  48 ≤ c.toNat && c.toNat ≤ 57

/-- Numeric value of an ASCII digit character. -/
def digitVal (c : Char) : Nat := c.toNat - 48

/-- Python whitespace as matched by `str.strip()` and the regex class
`\s`, restricted to the ASCII whitespace characters. -/
def isPySpace (c : Char) : Bool :=
  c.toNat == 32 || c.toNat == 9 || c.toNat == 10 || c.toNat == 13 ||
  c.toNat == 11 || c.toNat == 12

/-- Model of Python `str.strip()`: drop leading and trailing whitespace. -/
def pyStrip (s : Chars) : Chars :=
  ((s.dropWhile isPySpace).reverse.dropWhile isPySpace).reverse

/-- Model of Python `str.lower()` on the ASCII range. -/
def pyLower (s : Chars) : Chars := s.map Char.toLower

/-- Substring containment, modelling `re.search` with a literal pattern. -/
def containsSub (hay needle : Chars) : Bool :=
  hay.tails.any (fun t => needle.isPrefixOf t)

/-- Model of Python `str.replace(c, rep)` for a one-character needle. -/
def pyReplace (s : Chars) (c : Char) (rep : Chars) : Chars :=
  s.flatMap (fun x => if x == c then rep else [x])

/-- ASCII character for the decimal digit `n % 10`. -/
def digitChar (n : Nat) : Char := Char.ofNat (48 + n % 10)

/-- Value of a digit string read left to right (most significant first). -/
def digitsToNat (l : Chars) : Nat :=
  l.foldl (fun acc c => acc * 10 + digitVal c) 0

/-- Decimal digit characters of `n`, most significant first; `fuel` bounds
the recursion (callers pass fuel larger than the digit count).  Models
Python `str(int)`. -/
def natDecAux : Nat → Nat → Chars
  | 0, _ => []
  | fuel + 1, n => if n < 10 then [digitChar n] else natDecAux fuel (n / 10) ++ [digitChar n]

/-- Decimal rendering of a natural number, modelling Python `str(n)` for
`n < 10 ^ 30` (every number the program converts is below `2 ^ 32`). -/
def natDecString (n : Nat) : Chars := natDecAux 30 n

/-- Model of Python `str.zfill(w)`: left-pad with `'0'` to width `w`. -/
def zfillN (w : Nat) (l : Chars) : Chars :=
  if w ≤ l.length then l else List.replicate (w - l.length) '0' ++ l

/-- Two-digit zero-padded decimal, modelling `strftime` `%m`/`%d`/`%H`/
`%M`/`%S` for values below 100. -/
def pad2 (n : Nat) : Chars := [digitChar (n / 10), digitChar n]

/-- Four-digit zero-padded decimal, modelling `strftime` `%Y` for years in
`datetime`'s range 1..9999. -/
def pad4 (n : Nat) : Chars :=
  [digitChar (n / 1000), digitChar (n / 100), digitChar (n / 10), digitChar n]

/-! ### Dates and `datetime.strptime`

The program parses dates with `datetime.strptime` over fixed format lists.
CPython's `_strptime` compiles each directive to a regular expression
(`%Y` = exactly four digits, `%m` = `1[0-2]|0[1-9]|[1-9]`,
`%d` = `3[01]|[12]\d|0[1-9]|[1-9]`, `%H` = `2[0-3]|[0-1]\d|\d`,
`%M` = `[0-5]\d|\d`, `%S` = `6[01]|[0-5]\d|\d`, literal whitespace =
`\s+`, other literals verbatim), matches the compiled regex against a
prefix of the input with ordinary backtracking, requires the match to
consume the whole string, and finally builds a `datetime`, which validates
the year range 1..9999, the day against the month length and the second
below 60.  The model below reproduces exactly that: alternation
candidates are tried in the regex's priority order with backtracking into
the remainder of the format. -/

/-- A parsed Python `datetime` value (date plus time of day). -/
structure PyDate where
  year : Nat
  month : Nat
  day : Nat
  hour : Nat := 0
  minute : Nat := 0
  second : Nat := 0
deriving DecidableEq, Repr

/-- Gregorian leap-year test, as used by `datetime`. -/
def isLeapYear (y : Nat) : Bool :=
  y % 4 == 0 && (y % 100 != 0 || y % 400 == 0)

/-- Number of days in a month, as validated by the `datetime` constructor. -/
def daysInMonth (y m : Nat) : Nat :=
  if m == 2 then (if isLeapYear y then 29 else 28)
  else if m == 4 || m == 6 || m == 9 || m == 11 then 30
  else 31

/-- Field validation performed by the `datetime` constructor. -/
def validDate (d : PyDate) : Bool :=
  1 ≤ d.year && d.year ≤ 9999 && 1 ≤ d.month && d.month ≤ 12 &&
  1 ≤ d.day && d.day ≤ daysInMonth d.year d.month &&
  d.hour ≤ 23 && d.minute ≤ 59 && d.second ≤ 59

/-- One `strptime` format directive. -/
inductive Dir where
  | year | month | dayD | hourD | minuteD | secondD
  | lit (c : Char)
deriving DecidableEq, Repr

/-- Candidate `(value, rest)` pairs a directive can match at the head of
the input, in the priority order of CPython's compiled regex. -/
def dirMatches : Dir → Chars → List (Nat × Chars)
  | .year, a :: b :: c :: d :: rest =>
      if isDigitChar a && isDigitChar b && isDigitChar c && isDigitChar d then
        [(digitVal a * 1000 + digitVal b * 100 + digitVal c * 10 + digitVal d, rest)]
      else []
  | .year, _ => []
  | .month, s =>
      (match s with
        | a :: b :: rest =>
          (if a.toNat == 49 && 48 ≤ b.toNat && b.toNat ≤ 50 then
            [(10 + digitVal b, rest)] else []) ++
          (if a.toNat == 48 && 49 ≤ b.toNat && b.toNat ≤ 57 then
            [(digitVal b, rest)] else [])
        | _ => []) ++
      (match s with
        | a :: rest => if 49 ≤ a.toNat && a.toNat ≤ 57 then [(digitVal a, rest)] else []
        | _ => [])
  | .dayD, s =>
      (match s with
        | a :: b :: rest =>
          (if a.toNat == 51 && (b.toNat == 48 || b.toNat == 49) then
            [(30 + digitVal b, rest)] else []) ++
          (if (a.toNat == 49 || a.toNat == 50) && isDigitChar b then
            [(digitVal a * 10 + digitVal b, rest)] else []) ++
          (if a.toNat == 48 && 49 ≤ b.toNat && b.toNat ≤ 57 then
            [(digitVal b, rest)] else [])
        | _ => []) ++
      (match s with
        | a :: rest => if 49 ≤ a.toNat && a.toNat ≤ 57 then [(digitVal a, rest)] else []
        | _ => [])
  | .hourD, s =>
      (match s with
        | a :: b :: rest =>
          (if a.toNat == 50 && 48 ≤ b.toNat && b.toNat ≤ 51 then
            [(20 + digitVal b, rest)] else []) ++
          (if (a.toNat == 48 || a.toNat == 49) && isDigitChar b then
            [(digitVal a * 10 + digitVal b, rest)] else [])
        | _ => []) ++
      (match s with
        | a :: rest => if isDigitChar a then [(digitVal a, rest)] else []
        | _ => [])
  | .minuteD, s =>
      (match s with
        | a :: b :: rest =>
          if 48 ≤ a.toNat && a.toNat ≤ 53 && isDigitChar b then
            [(digitVal a * 10 + digitVal b, rest)] else []
        | _ => []) ++
      (match s with
        | a :: rest => if isDigitChar a then [(digitVal a, rest)] else []
        | _ => [])
  | .secondD, s =>
      (match s with
        | a :: b :: rest =>
          (if a.toNat == 54 && (b.toNat == 48 || b.toNat == 49) then
            [(60 + digitVal b, rest)] else []) ++
          (if 48 ≤ a.toNat && a.toNat ≤ 53 && isDigitChar b then
            [(digitVal a * 10 + digitVal b, rest)] else [])
        | _ => []) ++
      (match s with
        | a :: rest => if isDigitChar a then [(digitVal a, rest)] else []
        | _ => [])
  | .lit c, s =>
      if isPySpace c then
        -- literal whitespace in the format is compiled to the greedy `\s+`
        let run := (s.takeWhile isPySpace).length
        (List.range run).map (fun i => (0, s.drop (run - i)))
      else
        match s with
        | x :: rest => if x.toNat == c.toNat then [(0, rest)] else []
        | [] => []

/-- Record a matched directive value on the accumulating parts (CPython's
defaults are year 1900, month 1, day 1, time 00:00:00). -/
def applyDir : Dir → Nat → PyDate → PyDate
  | .year, v, p => { p with year := v }
  | .month, v, p => { p with month := v }
  | .dayD, v, p => { p with day := v }
  | .hourD, v, p => { p with hour := v }
  | .minuteD, v, p => { p with minute := v }
  | .secondD, v, p => { p with second := v }
  | .lit _, _, p => p

/-- Try candidates in order, returning the first for which the
continuation succeeds (regex backtracking). -/
def tryCands : List (Nat × Chars) → (Nat → Chars → Option α) → Option α
  | [], _ => none
  | (v, r) :: cs, k =>
      match k v r with
      | some x => some x
      | none => tryCands cs k

/-- Match a directive list against a prefix of the input with
backtracking, returning the collected parts and the unconsumed rest of
the first full-regex match. -/
def runFmt : List Dir → Chars → PyDate → Option (PyDate × Chars)
  | [], s, p => some (p, s)
  | d :: ds, s, p =>
      tryCands (dirMatches d s) (fun v r => runFmt ds r (applyDir d v p))

/-- Model of `datetime.strptime(s, fmt)`: the regex match must consume the
whole input, then the `datetime` constructor validates the fields. -/
def strptime (fmt : List Dir) (s : Chars) : Option PyDate :=
  match runFmt fmt s { year := 1900, month := 1, day := 1 } with
  | some (p, []) => if validDate p then some p else none
  | _ => none

/-- Format `"%Y-%m-%d"`. -/
def fmtYmdDash : List Dir := [.year, .lit '-', .month, .lit '-', .dayD]

/-- Format `"%m/%d/%Y"`. -/
def fmtMdySlash : List Dir := [.month, .lit '/', .dayD, .lit '/', .year]

/-- Format `"%d/%m/%Y"`. -/
def fmtDmySlash : List Dir := [.dayD, .lit '/', .month, .lit '/', .year]

/-- Format `"%Y/%m/%d"`. -/
def fmtYmdSlash : List Dir := [.year, .lit '/', .month, .lit '/', .dayD]

/-- Format `"%m-%d-%Y"`. -/
def fmtMdyDash : List Dir := [.month, .lit '-', .dayD, .lit '-', .year]

/-- Format `"%d-%m-%Y"`. -/
def fmtDmyDash : List Dir := [.dayD, .lit '-', .month, .lit '-', .year]

/-- Format `"%Y%m%d"`. -/
def fmtYmdCompact : List Dir := [.year, .month, .dayD]

/-- Time-of-day tail `" %H:%M:%S"`. -/
def fmtHms : List Dir := [.lit ' ', .hourD, .lit ':', .minuteD, .lit ':', .secondD]

/-- `ColumnDetector.DATE_FORMATS`: the eight formats the detector's
`_is_date_value` tries, in source order. -/
def DATE_FORMATS : List (List Dir) :=
  [fmtYmdDash, fmtMdySlash, fmtDmySlash, fmtYmdSlash, fmtMdyDash, fmtDmyDash,
   fmtYmdSlash ++ fmtHms, fmtMdySlash ++ fmtHms]

/-- The seven formats `OFXGenerator._format_ofx_date` and
`OFXGenerator._parse_date` try, in source order. -/
def GEN_DATE_FORMATS : List (List Dir) :=
  [fmtYmdDash, fmtMdySlash, fmtDmySlash, fmtYmdSlash, fmtMdyDash, fmtDmyDash,
   fmtYmdCompact]

/-! ### Python `float()` conversion

`float(s)` is modelled on plain decimal notation (optional surrounding
whitespace, optional sign, digits with an optional point, optional
exponent).  The exotic inputs `float` also accepts (`inf`, `nan`, digit
underscores) never reach these call sites with a meaningful effect on the
claims and are modelled as failures.  The value is returned as an exact
rational; the program only compares these values against zero, where
rationals and IEEE doubles of decimal literals agree. -/

/-- Split a leading sign, returning the sign as `1` or `-1`. -/
def splitSign (s : Chars) : Int × Chars :=
  match s with
  | '-' :: rest => (-1, rest)
  | '+' :: rest => (1, rest)
  | _ => (1, s)

/-- The exact decimal value `mant * 10 ^ exp10` a `float(...)` literal
denotes, kept unnormalized.  The program only ever tests the sign of
these values (`> 0`, `< 0`), and the sign of the IEEE double equals the
sign of the exact decimal value for every input the program meets
(subnormal-underflow dust like `1e-400`, where IEEE rounds a nonzero
value to `0.0`, is noted as out of model). -/
structure PyFloat where
  mant : Int
  exp10 : Int
deriving DecidableEq, Repr

/-- Sign test `v > 0` on a parsed float value. -/
def pyFloatPos (v : PyFloat) : Bool := 0 < v.mant

/-- Sign test `v < 0` on a parsed float value. -/
def pyFloatNeg (v : PyFloat) : Bool := v.mant < 0

/-- Model of Python `float(s)` on plain decimal notation. -/
def parseFloat (s : Chars) : Option PyFloat :=
  let t := pyStrip s
  let (sign, t1) := splitSign t
  let ip := t1.takeWhile isDigitChar
  let r1 := t1.dropWhile isDigitChar
  let (fp, r2) :=
    match r1 with
    | '.' :: r => (r.takeWhile isDigitChar, r.dropWhile isDigitChar)
    | _ => ([], r1)
  if ip.length + fp.length == 0 then none
  else
    let mant : Int := sign * (digitsToNat ip * 10 ^ fp.length + digitsToNat fp : Nat)
    match r2 with
    | [] => some ⟨mant, -(fp.length : Int)⟩
    | e :: r3 =>
      if e == 'e' || e == 'E' then
        let (esign, r4) := splitSign r3
        let ed := r4.takeWhile isDigitChar
        if ed.length == 0 || (r4.dropWhile isDigitChar).length != 0 then none
        else some ⟨mant, esign * (digitsToNat ed : Int) - (fp.length : Int)⟩
      else none

/-! ### `ColumnDetector` (`core/detector.py`)

Role assignments are modelled as association lists `List (Chars × Chars)`
from column name to role string, read like a Python `dict`: lookups take
the first (unique) matching key. -/

/-- First-match association-list lookup (Python `dict` access). -/
def alookup (k : Chars) : List (Chars × Chars) → Option Chars
  | [] => none
  | (k2, v) :: rest => if k2 = k then some v else alookup k rest

/-- The role string `"date"`. -/
def dateRole : Chars := "date".toList

/-- The role string `"amount"`. -/
def amountRole : Chars := "amount".toList

/-- The role string `"description"`. -/
def descriptionRole : Chars := "description".toList

/-- The role string `"type"`. -/
def typeRole : Chars := "type".toList

/-- The role string `"debit"` (asserted by the repository's tests, never
produced by `detect_from_headers` or `detect_from_data`). -/
def debitRole : Chars := "debit".toList

/-- The role string `"credit"`. -/
def creditRole : Chars := "credit".toList

/-- `ColumnDetector.DATE_PATTERNS` (literal regexes used with
`re.search`, i.e. substring tests). -/
def DATE_PATTERNS : List Chars :=
  ["date", "transaction_date", "post_date", "value_date", "timestamp"].map
    String.toList

/-- `ColumnDetector.AMOUNT_PATTERNS`. -/
def AMOUNT_PATTERNS : List Chars :=
  ["amount", "value", "sum", "total", "debit", "credit", "balance"].map
    String.toList

/-- `ColumnDetector.DESCRIPTION_PATTERNS`. -/
def DESCRIPTION_PATTERNS : List Chars :=
  ["description", "memo", "note", "details", "reference", "payee",
   "merchant", "transaction"].map String.toList

/-- `ColumnDetector.TYPE_PATTERNS` with their `^...$` anchors stripped:
these four regexes are full-string matches. -/
def TYPE_PATTERNS_EXACT : List Chars :=
  ["type", "category", "classification", "transaction_type"].map String.toList

/-- `ColumnDetector._matches_patterns` for the unanchored literal pattern
lists: `re.search` with a literal is substring containment (the inputs
are already lower-cased, so `re.IGNORECASE` is inert). -/
def matchesPatterns (text : Chars) (patterns : List Chars) : Bool :=
  patterns.any (fun p => containsSub text p)

/-- `ColumnDetector._matches_patterns` on `TYPE_PATTERNS`: the anchored
regexes match the whole string. -/
def matchesTypePatterns (text : Chars) : Bool :=
  TYPE_PATTERNS_EXACT.any (fun p => text == p)

/-- Role given to a single header by `detect_from_headers`: the four
pattern groups are tried in the order date, amount, type, description on
the lower-cased stripped header. -/
def headerRole (h : Chars) : Option Chars :=
  let hl := pyStrip (pyLower h)
  if matchesPatterns hl DATE_PATTERNS then some dateRole
  else if matchesPatterns hl AMOUNT_PATTERNS then some amountRole
  else if matchesTypePatterns hl then some typeRole
  else if matchesPatterns hl DESCRIPTION_PATTERNS then some descriptionRole
  else none

/-- `ColumnDetector.detect_from_headers`: headers with no matching group
get no entry. -/
def detectFromHeaders (headers : List Chars) : List (Chars × Chars) :=
  headers.filterMap (fun h => (headerRole h).map (fun r => (h, r)))

/-- Drop `n` leading digits, failing when fewer are available; the
building block of the `re.match` date-shape patterns. -/
def takeDigitsD (n : Nat) (s : Chars) : Option Chars :=
  if (s.take n).length == n && (s.take n).all isDigitChar then some (s.drop n)
  else none

/-- Consume one expected literal character. -/
def expectChar (c : Char) : Chars → Option Chars
  | x :: rest => if x == c then some rest else none
  | [] => none

/-- `ColumnDetector._is_date_value`: the five `re.match` shape patterns
(anchored at the start only) on the stripped value, then the eight
`DATE_FORMATS` via `strptime`. -/
def isDateValue (v : Chars) : Bool :=
  let s := pyStrip v
  (takeDigitsD 8 s).isSome ||
  (takeDigitsD 6 s).isSome ||
  (takeDigitsD 4 s |>.bind (expectChar '-') |>.bind (takeDigitsD 2) |>.bind
    (expectChar '-') |>.bind (takeDigitsD 2)).isSome ||
  (takeDigitsD 2 s |>.bind (expectChar '/') |>.bind (takeDigitsD 2) |>.bind
    (expectChar '/') |>.bind (takeDigitsD 4)).isSome ||
  (takeDigitsD 2 s |>.bind (expectChar '/') |>.bind (takeDigitsD 2) |>.bind
    (expectChar '/') |>.bind (takeDigitsD 2)).isSome ||
  DATE_FORMATS.any (fun fmt => (strptime fmt s).isSome)

/-- The currency symbols stripped by the detector and the generator:
`$ € £ ¥ ₹ ₽ ₿`. -/
def isCurrencySymbol (c : Char) : Bool :=
  c == '$' || c == '€' || c == '£' || c == '¥' || c == '₹' || c == '₽' || c == '₿'

/-- Strip a possible leading minus sign. -/
def dropMinus (s : Chars) : Chars :=
  match s with
  | '-' :: rest => rest
  | _ => s

/-- The regex `^-?\d+\.?\d*$`. -/
def matchAmountBasic (s0 : Chars) : Bool :=
  let s := dropMinus s0
  let d1 := s.takeWhile isDigitChar
  let r1 := s.dropWhile isDigitChar
  d1.length > 0 &&
    match r1 with
    | [] => true
    | '.' :: r2 => r2.all isDigitChar
    | _ => false

/-- The regex `^-?\d{1,3}(,\d{3})*(\.\d{2})?$`. -/
def matchAmountGrouped (s0 : Chars) : Bool :=
  let s := dropMinus s0
  let (main, fracOk) :=
    match s.splitOn '.' with
    | [m] => (m, true)
    | [m, f] => (m, f.length == 2 && f.all isDigitChar)
    | _ => ([], false)
  fracOk &&
    match main.splitOn ',' with
    | [] => false
    | g0 :: gs =>
        1 ≤ g0.length && g0.length ≤ 3 && g0.all isDigitChar &&
        gs.all (fun g => g.length == 3 && g.all isDigitChar)

/-- The regex `^-?\d+\.\d{2}$`. -/
def matchAmountCents (s0 : Chars) : Bool :=
  let s := dropMinus s0
  let d1 := s.takeWhile isDigitChar
  let r1 := s.dropWhile isDigitChar
  d1.length > 0 &&
    match r1 with
    | '.' :: r2 => r2.length == 2 && r2.all isDigitChar
    | _ => false

/-- `ColumnDetector._is_amount_value`: currency symbols are removed from
the stripped value, then the three anchored numeric regexes are tried. -/
def isAmountValue (v : Chars) : Bool :=
  let cleaned := (pyStrip v).filter (fun c => !isCurrencySymbol c)
  matchAmountBasic cleaned || matchAmountGrouped cleaned || matchAmountCents cleaned

/-- ASCII upper-case letter test (Python `str.isupper` per character). -/
def isUpperChar (c : Char) : Bool := 65 ≤ c.toNat && c.toNat ≤ 90

/-- ASCII lower-case letter test. -/
def isLowerChar (c : Char) : Bool := 97 ≤ c.toNat && c.toNat ≤ 122

/-- `ColumnDetector._is_description_value`. -/
def isDescriptionValue (v : Chars) : Bool :=
  if v.isEmpty || (pyStrip v).length < 3 then false
  else if isAmountValue v || isDateValue v then false
  else
    (v.any isUpperChar && v.any isLowerChar) ||
    v.any (fun c => c == '.' || c == ',' || c == '!' || c == '?' || c == ';' || c == ':')

/-- The closed transaction-type vocabulary of `_is_type_column`. -/
def TYPE_VALUES : List Chars :=
  ["debit", "credit", "deposit", "withdrawal", "transfer", "payment",
   "purchase", "refund", "fee", "interest", "atm", "check", "ach", "wire",
   "pos"].map String.toList

/-- Membership of a single value in the type vocabulary, as tested inside
`_is_type_column` (`str(value).lower().strip() in type_values`). -/
def isTypeValue (v : Chars) : Bool :=
  TYPE_VALUES.any (fun t => pyStrip (pyLower v) == t)

/-- `ColumnDetector._is_date_column`: strictly more than 70% of the first
100 sampled values must look like dates.  The source compares the IEEE
quotient `date_count / total_count` against the literal `0.7`; for the
sample sizes the code can produce (`total ≤ 100`) that float comparison
coincides with the exact comparison `10 * count > 7 * total`, because a
ratio equal to 7/10 rounds to the same double as the literal `0.7` and
any other ratio with denominator at most 100 differs from 7/10 by at
least 1/1000, far above rounding error. -/
def isDateColumn (vals : List Chars) : Bool :=
  let sample := vals.take 100
  let total := sample.length
  let cnt := (sample.filter isDateValue).length
  if total > 0 then decide (cnt * 10 > 7 * total) else false

/-- `ColumnDetector._is_amount_column` (threshold 60%, same float
faithfulness argument as `isDateColumn`). -/
def isAmountColumn (vals : List Chars) : Bool :=
  let sample := vals.take 100
  let total := sample.length
  let cnt := (sample.filter isAmountValue).length
  if total > 0 then decide (cnt * 10 > 6 * total) else false

/-- `ColumnDetector._is_description_column` (threshold 50%). -/
def isDescriptionColumn (vals : List Chars) : Bool :=
  let sample := vals.take 100
  let total := sample.length
  let cnt := (sample.filter isDescriptionValue).length
  if total > 0 then decide (cnt * 2 > total) else false

/-- `ColumnDetector._is_type_column` (threshold 30%). -/
def isTypeColumn (vals : List Chars) : Bool :=
  let sample := vals.take 100
  let total := sample.length
  let cnt := (sample.filter isTypeValue).length
  if total > 0 then decide (cnt * 10 > 3 * total) else false

/-- `ColumnDetector._analyze_column_data`: null cells are dropped, then
the four column tests run in the fixed order date, amount, description,
type. -/
def analyzeColumnData (cells : List (Option Chars)) : Option Chars :=
  let nonNull := cells.filterMap id
  if nonNull.isEmpty then none
  else if isDateColumn nonNull then some dateRole
  else if isAmountColumn nonNull then some amountRole
  else if isDescriptionColumn nonNull then some descriptionRole
  else if isTypeColumn nonNull then some typeRole
  else none

/-- A data frame: ordered columns of named optional cells. -/
abbrev Frame := List (Chars × List (Option Chars))

/-- One loop iteration of `detect_from_data`: a column already present
in the header-derived assignment (`self.detected_columns`) keeps its
role; otherwise its data are analyzed, and a column with no detected
role gets no entry. -/
def detectColumnEntry (state : List (Chars × Chars)) (col : Chars × List (Option Chars)) :
    Option (Chars × Chars) :=
  match alookup col.1 state with
  | some r => some (col.1, r)
  | none => (analyzeColumnData col.2).map (fun r => (col.1, r))

/-- `ColumnDetector.detect_from_data`. -/
def detectFromData (state : List (Chars × Chars)) (df : Frame) : List (Chars × Chars) :=
  df.filterMap (detectColumnEntry state)

/-- `ColumnDetector.get_required_columns`. -/
def getRequiredColumns : List Chars := [dateRole, amountRole, descriptionRole]

/-- `ColumnDetector.validate_detected_columns`: every required role must
occur among the assignment's values; the missing list keeps the required
order. -/
def validateDetectedColumns (detected : List (Chars × Chars)) :
    Bool × List Chars :=
  let types := detected.map Prod.snd
  let missing := getRequiredColumns.filter (fun r => !types.contains r)
  (missing.isEmpty, missing)

/-- Overwriting insertion into an association list, modelling Python
`dict[k] = v` (an existing key keeps its position, a new key is
appended). -/
def dictInsert (m : List (Chars × Chars)) (k v : Chars) : List (Chars × Chars) :=
  if m.any (fun p => p.1 = k) then
    m.map (fun p => if p.1 = k then (k, v) else p)
  else m ++ [(k, v)]

/-- The reverse role-to-column map built by
`FileParser._dataframe_to_transactions` (`type_to_column[col_type] = col`
over the assignment in order: for duplicated roles the last column
wins). -/
def typeToColumn (detected : List (Chars × Chars)) : List (Chars × Chars) :=
  detected.foldl (fun m p => dictInsert m p.2 p.1) []

/-! ### MD5 (`hashlib.md5`)

The generator derives transaction identifiers from
`hashlib.md5(content.encode())`.  `str.encode()` is UTF-8; MD5 is the
RFC 1321 algorithm, implemented here over `Nat` with explicit `% 2^32`
reductions. -/

/-- `2 ^ 32`. -/
def M32 : Nat := 4294967296

/-- 32-bit left rotation, for `x < 2 ^ 32` and `0 < n < 32`. -/
def rotl32 (x n : Nat) : Nat := (x * 2 ^ n + x / 2 ^ (32 - n)) % M32

/-- 32-bit complement, for `x < 2 ^ 32`. -/
def not32 (x : Nat) : Nat := 4294967295 - x

/-- MD5 round function F. -/
def md5F (b c d : Nat) : Nat := Nat.lor (Nat.land b c) (Nat.land (not32 b) d)

/-- MD5 round function G. -/
def md5G (b c d : Nat) : Nat := Nat.lor (Nat.land d b) (Nat.land (not32 d) c)

/-- MD5 round function H. -/
def md5H (b c d : Nat) : Nat := Nat.xor (Nat.xor b c) d

/-- MD5 round function I. -/
def md5I (b c d : Nat) : Nat := Nat.xor c (Nat.lor b (not32 d))

/-- The 64 MD5 sine-derived constants of RFC 1321. -/
def md5K : List Nat :=
  [0xd76aa478, 0xe8c7b756, 0x242070db, 0xc1bdceee,
   0xf57c0faf, 0x4787c62a, 0xa8304613, 0xfd469501,
   0x698098d8, 0x8b44f7af, 0xffff5bb1, 0x895cd7be,
   0x6b901122, 0xfd987193, 0xa679438e, 0x49b40821,
   0xf61e2562, 0xc040b340, 0x265e5a51, 0xe9b6c7aa,
   0xd62f105d, 0x02441453, 0xd8a1e681, 0xe7d3fbc8,
   0x21e1cde6, 0xc33707d6, 0xf4d50d87, 0x455a14ed,
   0xa9e3e905, 0xfcefa3f8, 0x676f02d9, 0x8d2a4c8a,
   0xfffa3942, 0x8771f681, 0x6d9d6122, 0xfde5380c,
   0xa4beea44, 0x4bdecfa9, 0xf6bb4b60, 0xbebfbc70,
   0x289b7ec6, 0xeaa127fa, 0xd4ef3085, 0x04881d05,
   0xd9d4d039, 0xe6db99e5, 0x1fa27cf8, 0xc4ac5665,
   0xf4292244, 0x432aff97, 0xab9423a7, 0xfc93a039,
   0x655b59c3, 0x8f0ccc92, 0xffeff47d, 0x85845dd1,
   0x6fa87e4f, 0xfe2ce6e0, 0xa3014314, 0x4e0811a1,
   0xf7537e82, 0xbd3af235, 0x2ad7d2bb, 0xeb86d391]

/-- The 64 MD5 per-round rotation amounts. -/
def md5S : List Nat :=
  [7, 12, 17, 22, 7, 12, 17, 22, 7, 12, 17, 22, 7, 12, 17, 22,
   5, 9, 14, 20, 5, 9, 14, 20, 5, 9, 14, 20, 5, 9, 14, 20,
   4, 11, 16, 23, 4, 11, 16, 23, 4, 11, 16, 23, 4, 11, 16, 23,
   6, 10, 15, 21, 6, 10, 15, 21, 6, 10, 15, 21, 6, 10, 15, 21]

/-- Split a byte list into chunks of `n` bytes; `fuel` bounds the
recursion (callers pass the list length). -/
def chunksOf (n : Nat) : Nat → List Nat → List (List Nat)
  | 0, _ => []
  | _, [] => []
  | fuel + 1, l => l.take n :: chunksOf n fuel (l.drop n)

/-- RFC 1321 padding: a `0x80` byte, zeros to 56 mod 64, then the bit
length as eight little-endian bytes. -/
def md5Pad (msg : List Nat) : List Nat :=
  let L := msg.length
  let zeros := (120 - (L + 1) % 64) % 64
  let bitLen := (8 * L) % 2 ^ 64
  msg ++ [128] ++ List.replicate zeros 0 ++
    (List.range 8).map (fun i => bitLen / 256 ^ i % 256)

/-- A 32-bit word from four little-endian bytes. -/
def word4 (bs : List Nat) : Nat :=
  bs.getD 0 0 + 256 * bs.getD 1 0 + 65536 * bs.getD 2 0 + 16777216 * bs.getD 3 0

/-- One MD5 compression of a 16-word chunk. -/
def md5ProcessChunk (st : Nat × Nat × Nat × Nat) (ws : List Nat) :
    Nat × Nat × Nat × Nat :=
  let step := fun (s : Nat × Nat × Nat × Nat) (i : Nat) =>
    let (a, b, c, d) := s
    let fg :=
      if i < 16 then (md5F b c d, i)
      else if i < 32 then (md5G b c d, (5 * i + 1) % 16)
      else if i < 48 then (md5H b c d, (3 * i + 5) % 16)
      else (md5I b c d, (7 * i) % 16)
    let tmp := (a + fg.1 + md5K.getD i 0 + ws.getD fg.2 0) % M32
    (d, (b + rotl32 tmp (md5S.getD i 0)) % M32, b, c)
  let r := (List.range 64).foldl step st
  ((st.1 + r.1) % M32, (st.2.1 + r.2.1) % M32,
   (st.2.2.1 + r.2.2.1) % M32, (st.2.2.2 + r.2.2.2) % M32)

/-- MD5 digest of a byte string, as 16 bytes. -/
def md5Digest (msg : List Nat) : List Nat :=
  let padded := md5Pad msg
  let chunks := chunksOf 64 padded.length padded
  let st := chunks.foldl
    (fun st ch => md5ProcessChunk st ((chunksOf 4 ch.length ch).map word4))
    (0x67452301, 0xefcdab89, 0x98badcfe, 0x10325476)
  [st.1, st.2.1, st.2.2.1, st.2.2.2].flatMap
    (fun w => (List.range 4).map (fun i => w / 256 ^ i % 256))

/-- Lower-case hexadecimal digit character. -/
def hexDigitChar (n : Nat) : Char :=
  if n < 10 then digitChar n else Char.ofNat (87 + n % 16)

/-- Two-character lower-case hex rendering of a byte. -/
def byteHex (b : Nat) : Chars := [hexDigitChar (b / 16), hexDigitChar (b % 16)]

/-- Model of `hashlib.md5(bytes).hexdigest()`. -/
def md5Hex (msg : List Nat) : Chars := (md5Digest msg).flatMap byteHex

/-- Numeric value of a lower-case hexadecimal digit. -/
def hexVal (c : Char) : Nat := if isDigitChar c then digitVal c else c.toNat - 87

/-- Model of Python `int(s, 16)` on the lower-case hex strings
`hexdigest` produces. -/
def hexToNat (s : Chars) : Nat := s.foldl (fun acc c => acc * 16 + hexVal c) 0

/-- UTF-8 encoding of a string, modelling `str.encode()`. -/
def utf8Encode (s : Chars) : List Nat :=
  s.flatMap (fun c =>
    let cp := c.toNat
    if cp < 128 then [cp]
    else if cp < 2048 then [192 + cp / 64, 128 + cp % 64]
    else if cp < 65536 then
      [224 + cp / 4096, 128 + cp / 64 % 64, 128 + cp % 64]
    else
      [240 + cp / 262144, 128 + cp / 4096 % 64, 128 + cp / 64 % 64,
       128 + cp % 64])

/-! ### `OFXGenerator` (`core/ofx_generator.py`)

A transaction dictionary carries at most the six keys the generator ever
reads (`date`, `amount`, `debit`, `credit`, `description`, `type`), so it
is modelled as a record of optional strings.  The `lxml` element tree is
modelled by `Node`; `datetime.now()` is a parameter of the functions that
stamp the current time. -/

/-- A transaction dictionary. -/
structure Transaction where
  date : Option Chars := none
  amount : Option Chars := none
  debit : Option Chars := none
  credit : Option Chars := none
  description : Option Chars := none
  txType : Option Chars := none
deriving DecidableEq, Repr

/-- The generator's configuration surface (`generate_ofx` keyword
arguments; note there is no balance argument). -/
structure Config where
  ofxVersion : Chars := "102".toList
  fiOrg : Option Chars := none
  fiId : Option Chars := none
  accountId : Option Chars := none
  accountType : Chars := "CHECKING".toList
  currency : Chars := "USD".toList
deriving DecidableEq, Repr

/-- An `lxml` element: tag, optional text, children. -/
inductive Node where
  | mk (tag : String) (text : Option Chars) (children : List Node)

/-- Tag of a node. -/
def Node.tag : Node → String
  | .mk t _ _ => t

/-- Text of a node. -/
def Node.text : Node → Option Chars
  | .mk _ x _ => x

/-- Children of a node. -/
def Node.children : Node → List Node
  | .mk _ _ ch => ch

/-- An element with text and no children. -/
def leafN (t : String) (txt : Chars) : Node := .mk t (some txt) []

/-- An element with neither text nor children (a `SubElement` whose
`.text` is never assigned). -/
def emptyN (t : String) : Node := .mk t none []

/-- The character class `[$€£¥₹₽₿,]` removed before the `float`
conversions of debit/credit/amount fields. -/
def cleanCurrencyComma (s : Chars) : Chars :=
  s.filter (fun c => !(isCurrencySymbol c || c == ','))

/-- `OFXGenerator._normalize_amount`: strip `[$€£¥₹₽₿\s]`, strip commas,
then append `".00"` when no decimal point remains. -/
def normalizeAmount (amount : Chars) : Chars :=
  let c1 := amount.filter (fun c => !(isCurrencySymbol c || isPySpace c))
  let c2 := c1.filter (fun c => !(c == ','))
  if c2.contains '.' then c2 else c2 ++ ".00".toList

/-- `OFXGenerator._parse_date`: try the seven `GEN_DATE_FORMATS` in order
on the stripped string, returning the first success. -/
def parseDateGen (s : Chars) : Option PyDate :=
  GEN_DATE_FORMATS.findSome? (fun fmt => strptime fmt (pyStrip s))

/-- `strftime("%Y%m%d")` of a parsed date. -/
def strftime8 (d : PyDate) : Chars := pad4 d.year ++ pad2 d.month ++ pad2 d.day

/-- `strftime("%Y%m%d%H%M%S")` of a datetime. -/
def strftime14 (d : PyDate) : Chars :=
  strftime8 d ++ pad2 d.hour ++ pad2 d.minute ++ pad2 d.second

/-- `OFXGenerator._format_ofx_date`: the first format that parses wins
and is rendered as `strftime("%Y%m%d120000")`; when every format fails
the original string is returned with `"120000"` appended. -/
def formatOfxDate (dateStr : Chars) : Chars :=
  match parseDateGen dateStr with
  | some d => strftime8 d ++ "120000".toList
  | none => dateStr ++ "120000".toList

/-- `float(clean) if clean else 0.0`, propagating `ValueError` as
`none`. -/
def floatOrZero (s : Chars) : Option PyFloat :=
  if s.isEmpty then some ⟨0, 0⟩ else parseFloat s

/-- The explicit type mapping of `_determine_transaction_type`. -/
def TYPE_MAPPING : List (Chars × Chars) :=
  [("debit", "DEBIT"), ("credit", "CREDIT"), ("deposit", "CREDIT"),
   ("withdrawal", "DEBIT"), ("transfer", "XFER"), ("payment", "DEBIT"),
   ("purchase", "DEBIT"), ("refund", "CREDIT"), ("fee", "DEBIT"),
   ("interest", "CREDIT")].map (fun p => (p.1.toList, p.2.toList))

/-- Fallback of `_determine_transaction_type` on the single amount field:
negative means DEBIT, otherwise CREDIT; an unparsable or missing amount
falls to the default DEBIT. -/
def typeFromSingleAmount (t : Transaction) : Chars :=
  match t.amount with
  | some a =>
      (match parseFloat (cleanCurrencyComma a) with
        | some v => if pyFloatNeg v then "DEBIT".toList else "CREDIT".toList
        | none => "DEBIT".toList)
  | none => "DEBIT".toList

/-- Debit/credit-column step of `_determine_transaction_type`: a positive
debit field wins, then a positive credit field; a `float` failure or two
non-positive values fall to the single-amount check. -/
def typeFromAmounts (t : Transaction) : Chars :=
  match floatOrZero (cleanCurrencyComma (t.debit.getD "0".toList)),
        floatOrZero (cleanCurrencyComma (t.credit.getD "0".toList)) with
  | some df, some cf =>
      if pyFloatPos df then "DEBIT".toList
      else if pyFloatPos cf then "CREDIT".toList
      else typeFromSingleAmount t
  | _, _ => typeFromSingleAmount t

/-- `OFXGenerator._determine_transaction_type`. -/
def determineTransactionType (t : Transaction) : Chars :=
  match t.txType with
  | some ty =>
      (match alookup (pyLower ty) TYPE_MAPPING with
        | some ofx => ofx
        | none => typeFromAmounts t)
  | none => typeFromAmounts t

/-- The `TRNAMT` text chosen by `_add_transaction_to_list`: a positive
debit amount, else a positive credit amount, else the `amount` field
normalized, else `"0.00"`; a `float` failure also falls back to the
`amount` field. -/
def trnAmtText (t : Transaction) : Chars :=
  match floatOrZero (cleanCurrencyComma (t.debit.getD "0".toList)),
        floatOrZero (cleanCurrencyComma (t.credit.getD "0".toList)) with
  | some df, some cf =>
      if pyFloatPos df then normalizeAmount (t.debit.getD "0".toList)
      else if pyFloatPos cf then normalizeAmount (t.credit.getD "0".toList)
      else
        match t.amount with
        | some a => normalizeAmount a
        | none => "0.00".toList
  | _, _ =>
      match t.amount with
      | some a => normalizeAmount a
      | none => "0.00".toList

/-- The raw amount string folded into the transaction identifier
(`amount_for_id`): the positive debit or credit field unnormalized, else
the `amount` field, else the initial `"0"`. -/
def amountForId (t : Transaction) : Chars :=
  match floatOrZero (cleanCurrencyComma (t.debit.getD "0".toList)),
        floatOrZero (cleanCurrencyComma (t.credit.getD "0".toList)) with
  | some df, some cf =>
      if pyFloatPos df then t.debit.getD "0".toList
      else if pyFloatPos cf then t.credit.getD "0".toList
      else
        match t.amount with
        | some a => a
        | none => "0".toList
  | _, _ =>
      match t.amount with
      | some a => a
      | none => "0".toList

/-- The `FITID` text as a function of the date field, the chosen raw
amount and the description field: the MD5 of
`"{date}_{amount}"` (plus `"_{description}"` when present) has its first
eight hex digits read as a number, decimally rendered, truncated to eight
characters and zero-filled to width eight; a transaction without a date
gets `"00000000"`. -/
def fitIdCore (dateOpt : Option Chars) (amt : Chars) (descOpt : Option Chars) :
    Chars :=
  match dateOpt with
  | some d =>
      let content := d ++ ('_' :: amt) ++
        (match descOpt with
          | some ds => '_' :: ds
          | none => [])
      let hashHex := (md5Hex (utf8Encode content)).take 8
      zfillN 8 ((natDecString (hexToNat hashHex)).take 8)
  | none => "00000000".toList

/-- The `FITID` text emitted for a transaction. -/
def fitIdText (t : Transaction) : Chars :=
  fitIdCore t.date (amountForId t) t.description

/-- `OFXGenerator._sanitize_text`: the five sequential entity
replacements, then truncation of strings longer than 255 characters to
252 characters plus `"..."`. -/
def sanitizeText (text : Chars) : Chars :=
  let s := pyReplace (pyReplace (pyReplace (pyReplace (pyReplace text
    '&' "&amp;".toList) '<' "&lt;".toList) '>' "&gt;".toList)
    '"' "&quot;".toList) '\'' "&apos;".toList
  if s.length > 255 then s.take 252 ++ "...".toList else s

/-- `OFXGenerator._add_transaction_to_list`: the `STMTTRN` element built
for one transaction. -/
def mkStmtTrn (t : Transaction) : Node :=
  .mk "STMTTRN" none
    ([leafN "TRNTYPE" (determineTransactionType t),
      (match t.date with
        | some d => leafN "DTPOSTED" (formatOfxDate d)
        | none => emptyN "DTPOSTED"),
      (match t.date with
        | some d => leafN "DTUSER" (formatOfxDate d)
        | none => emptyN "DTUSER"),
      leafN "TRNAMT" (trnAmtText t),
      leafN "FITID" (fitIdText t)] ++
      (match t.description with
        | some ds => [leafN "NAME" (sanitizeText ds)]
        | none => []))

/-- Chronological order on parsed datetimes (`datetime` comparison). -/
def dtLe (a b : PyDate) : Bool :=
  if a.year != b.year then a.year < b.year
  else if a.month != b.month then a.month < b.month
  else if a.day != b.day then a.day < b.day
  else if a.hour != b.hour then a.hour < b.hour
  else if a.minute != b.minute then a.minute < b.minute
  else a.second ≤ b.second

/-- Python `min` over a nonempty list: the fold keeps the earlier element
on ties. -/
def minDate (d : PyDate) (ds : List PyDate) : PyDate :=
  ds.foldl (fun acc x => if dtLe acc x then acc else x) d

/-- Python `max` over a nonempty list. -/
def maxDate (d : PyDate) (ds : List PyDate) : PyDate :=
  ds.foldl (fun acc x => if dtLe x acc then acc else x) d

/-- `OFXGenerator._get_earliest_date`: the dates of the transactions are
collected, those `_parse_date` accepts are compared, and the minimum is
rendered with `strftime("%Y%m%d")`; with no date field or no parsable
date the current date is used. -/
def getEarliestDate (transactions : List Transaction) (now : PyDate) : Chars :=
  let dates := transactions.filterMap (fun t => t.date)
  if dates.isEmpty then strftime8 now
  else
    match dates.filterMap parseDateGen with
    | [] => strftime8 now
    | p :: ps => strftime8 (minDate p ps)

/-- `OFXGenerator._get_latest_date`. -/
def getLatestDate (transactions : List Transaction) (now : PyDate) : Chars :=
  let dates := transactions.filterMap (fun t => t.date)
  if dates.isEmpty then strftime8 now
  else
    match dates.filterMap parseDateGen with
    | [] => strftime8 now
    | p :: ps => strftime8 (maxDate p ps)

/-- `OFXGenerator._add_balance_sections`: always two blocks with the
hard-coded amount `"0.00"` and the current timestamp. -/
def balanceSections (now : PyDate) : List Node :=
  [.mk "LEDGERBAL" none
    [leafN "BALAMT" "0.00".toList, leafN "DTASOF" (strftime14 now)],
   .mk "AVAILBAL" none
    [leafN "BALAMT" "0.00".toList, leafN "DTASOF" (strftime14 now)]]

/-- The nine header leaves of `_create_ofx_structure`. -/
def headerLeaves (cfg : Config) : List Node :=
  [leafN "OFXHEADER" "100".toList, leafN "DATA" "OFXSGML".toList,
   leafN "VERSION" cfg.ofxVersion, leafN "SECURITY" "NONE".toList,
   leafN "ENCODING" "UTF-8".toList, leafN "CHARSET" "CSUNICODE".toList,
   leafN "COMPRESSION" "NONE".toList, leafN "OLDFILEUID" "NONE".toList,
   leafN "NEWFILEUID" "NONE".toList]

/-- `OFXGenerator._add_signon_section`. -/
def signonSection (cfg : Config) (now : PyDate) : Node :=
  .mk "SIGNONMSGSRSV1" none
    [.mk "SONRS" none
      ([.mk "STATUS" none [leafN "CODE" "0".toList, leafN "SEVERITY" "INFO".toList],
        leafN "DTSERVER" (strftime14 now),
        leafN "LANGUAGE" "ENG".toList,
        leafN "DTPROFUP" (strftime14 now),
        leafN "DTACCTUP" (strftime14 now)] ++
        (if cfg.fiOrg.isSome || cfg.fiId.isSome then
          [.mk "FI" none
            ((match cfg.fiOrg with
               | some o => [leafN "ORG" o]
               | none => []) ++
             (match cfg.fiId with
               | some i => [leafN "FID" i]
               | none => []))]
        else []))]

/-- `OFXGenerator._add_transactions_to_ofx`: the `BANKMSGSRSV1` section;
the date-range texts, the per-transaction entries and the balance
sections are all emitted under the source's `if transactions:` guard. -/
def bankSection (cfg : Config) (now : PyDate) (transactions : List Transaction) :
    Node :=
  .mk "BANKMSGSRSV1" none
    [.mk "STMTTRNRS" none
      [leafN "TRNUID" "0".toList,
       .mk "STATUS" none [leafN "CODE" "0".toList, leafN "SEVERITY" "INFO".toList],
       .mk "STMTRS" none
        ([leafN "CURDEF" cfg.currency,
          .mk "BANKACCTFROM" none
            [leafN "BANKID" (cfg.fiId.getD "000000000".toList),
             leafN "ACCTID" (cfg.accountId.getD "000000000000".toList),
             leafN "ACCTTYPE" cfg.accountType],
          .mk "BANKTRANLIST" none
            ([(if transactions.isEmpty then emptyN "DTSTART"
               else leafN "DTSTART" (formatOfxDate (getEarliestDate transactions now))),
              (if transactions.isEmpty then emptyN "DTEND"
               else leafN "DTEND" (formatOfxDate (getLatestDate transactions now)))] ++
             (if transactions.isEmpty then []
              else transactions.map mkStmtTrn))] ++
         (if transactions.isEmpty then [] else balanceSections now))]]

/-- `OFXGenerator.generate_ofx` up to (but not including) serialization:
an empty transaction list is a `ValueError`; otherwise the document tree
is assembled. -/
def generateOfx (transactions : List Transaction) (cfg : Config) (now : PyDate) :
    Option Node :=
  if transactions.isEmpty then none
  else some (.mk "OFX" none
    (headerLeaves cfg ++ [signonSection cfg now, bankSection cfg now transactions]))

mutual

/-- Whether a tag occurs anywhere in a document tree. -/
def containsTag (tg : String) : Node → Bool
  | .mk t _ ch => t == tg || containsTagList tg ch

/-- Whether a tag occurs in any tree of a forest. -/
def containsTagList (tg : String) : List Node → Bool
  | [] => false
  | n :: rest => containsTag tg n || containsTagList tg rest

end

/-- Text of the first child with the given tag. -/
def getChildText (tg : String) (n : Node) : Option Chars :=
  (n.children.find? (fun c => c.tag == tg)).bind Node.text

/-! ### Helper lemmas -/

/-- Every character of a normalized amount survives both filters of
`_normalize_amount`. -/
lemma normalizeAmount_chars (a : Chars) :
    ∀ c ∈ normalizeAmount a, (isCurrencySymbol c || isPySpace c || c == ',') = false := by
  intro c hc
  unfold normalizeAmount at hc
  by_cases hdot :
      ((a.filter (fun c => !(isCurrencySymbol c || isPySpace c))).filter
        (fun c => !(c == ','))).contains '.' = true
  · rw [if_pos hdot] at hc
    have h2 := List.of_mem_filter hc
    have h1 := List.of_mem_filter (List.mem_of_mem_filter hc)
    simp only [Bool.not_eq_true', Bool.or_eq_false_iff] at h1 h2
    simp [h1.1, h1.2, h2]
  · rw [if_neg hdot] at hc
    rcases List.mem_append.mp hc with hl | hr
    · have h2 := List.of_mem_filter hl
      have h1 := List.of_mem_filter (List.mem_of_mem_filter hl)
      simp only [Bool.not_eq_true', Bool.or_eq_false_iff] at h1 h2
      simp [h1.1, h1.2, h2]
    · have : c = '.' ∨ c = '0' := by
        simpa using hr
      rcases this with rfl | rfl <;> decide

/-- A normalized amount always contains a decimal point. -/
lemma normalizeAmount_contains_dot (a : Chars) :
    (normalizeAmount a).contains '.' = true := by
  simp only [normalizeAmount]
  split
  · assumption
  · exact List.elem_iff.mpr (List.mem_append_right _ (by decide))

/-- A string fixed by both filters of `_normalize_amount`, already
containing a decimal point, is fixed by `_normalize_amount`. -/
lemma normalizeAmount_fixed (w : Chars)
    (h1 : w.filter (fun c => !(isCurrencySymbol c || isPySpace c)) = w)
    (h2 : w.filter (fun c => !(c == ',')) = w)
    (hdot : w.contains '.' = true) : normalizeAmount w = w := by
  simp only [normalizeAmount]
  rw [h1, h2, if_pos hdot]

/-! ### C1 -/

/-- C1 (code behavior at the failing input): for the role assignment
`{col1: date, col2: description, col3: debit}` — which carries a date
column, a description column and an amount-bearing debit column —
`validate_detected_columns` returns not-ok with missing list
`["amount"]`, because `get_required_columns` returns the literal list
`["date", "amount", "description"]` and a `debit` role does not satisfy
the `amount` requirement.  The claim (and the repository's own
`test_get_required_columns`, which asserts that exactly `date` and
`description` are required) says validation must return ok here. -/
theorem c1_validate_requires_literal_amount :
    validateDetectedColumns
      [("col1".toList, dateRole), ("col2".toList, descriptionRole),
       ("col3".toList, debitRole)] = (false, [amountRole]) := by
  decide

/-! ### C2 -/

/-- C2 (code behavior at the failing input): `detect_from_headers`
assigns the generic role `amount` to the headers `"Debit"` and
`"Credit"`, because `AMOUNT_PATTERNS` contains the literals `debit` and
`credit` and the matching group maps every hit to `"amount"`; no branch
produces the roles `debit`/`credit` the claim (and the repository's own
`test_detect_from_headers_amount`) requires. -/
theorem c2_debit_credit_headers_get_amount :
    detectFromHeaders ["Debit".toList, "Credit".toList] =
      [("Debit".toList, amountRole), ("Credit".toList, amountRole)] := by
  decide

/-! ### C8 -/

/-- C8: amount normalization is idempotent — for every amount string,
normalizing twice equals normalizing once — and on the three sample
values `"100.00"`, `"$1,234.50"` and `"100"` it yields `"100.00"`,
`"1234.50"` and `"100.00"` respectively. -/
theorem c8_normalize_amount_idempotent :
    (∀ a : Chars, normalizeAmount (normalizeAmount a) = normalizeAmount a) ∧
    normalizeAmount "100.00".toList = "100.00".toList ∧
    normalizeAmount "$1,234.50".toList = "1234.50".toList ∧
    normalizeAmount "100".toList = "100.00".toList := by
  refine ⟨?_, by decide, by decide, by decide⟩
  intro a
  have hkeep := normalizeAmount_chars a
  have h1 : (normalizeAmount a).filter (fun c => !(isCurrencySymbol c || isPySpace c)) =
      normalizeAmount a := by
    refine List.filter_eq_self.mpr (fun c hc => ?_)
    have := hkeep c hc
    simp only [Bool.or_eq_false_iff] at this
    simp [this.1.1, this.1.2]
  have h2 : (normalizeAmount a).filter (fun c => !(c == ',')) = normalizeAmount a := by
    refine List.filter_eq_self.mpr (fun c hc => ?_)
    have := hkeep c hc
    simp only [Bool.or_eq_false_iff] at this
    simp [this.2]
  exact normalizeAmount_fixed _ h1 h2 (normalizeAmount_contains_dot a)

/-! ### C4 -/

/-- C4 (counterexample): for the unparsable date string `"not a date"`,
every accepted format fails, and `_format_ofx_date` returns the original
unparsable text with `"120000"` appended — not a current-timestamp
fallback and not a well-formed date value.  Moreover an unparsable
amount string `"abc"` is emitted as `"abc.00"`, not as the claimed
`"0.00"` fallback. -/
theorem c4_counterexample :
    parseDateGen "not a date".toList = none ∧
    formatOfxDate "not a date".toList = "not a date120000".toList ∧
    trnAmtText { amount := some "abc".toList } = "abc.00".toList := by
  decide

/-- C4 (amended): for every transaction whose date string fails to parse
under every accepted date format, date normalization during generation
does not abort but returns the original input text with the fixed time
suffix `"120000"` appended — so the emitted posted-date echoes the
unparsable input text.  The `"0.00"` amount default is emitted when the
transaction carries no amount-bearing field at all, and also when the
transaction has no `amount` key and a debit or credit field whose
`float` conversion fails (the `ValueError` path) — not for an unparsable
`amount` field, which is echoed through normalization instead. -/
theorem c4_unparsable_date_echoes_input :
    (∀ s : Chars, parseDateGen s = none → formatOfxDate s = s ++ "120000".toList) ∧
    (∀ (t : Transaction) (s : Chars), t.date = some s → parseDateGen s = none →
      getChildText "DTPOSTED" (mkStmtTrn t) = some (s ++ "120000".toList)) ∧
    (∀ t : Transaction, t.amount = none → t.debit = none → t.credit = none →
      trnAmtText t = "0.00".toList) ∧
    (∀ (t : Transaction) (d c : Chars), t.amount = none → t.debit = some d →
      t.credit = some c →
      floatOrZero (cleanCurrencyComma d) = none ∨
        floatOrZero (cleanCurrencyComma c) = none →
      trnAmtText t = "0.00".toList) := by
  refine ⟨?_, ?_, ?_, ?_⟩
  · intro s h
    simp [formatOfxDate, h]
  · intro t s ht hp
    simp [mkStmtTrn, getChildText, Node.children, ht, leafN, Node.tag,
      List.find?, Node.text, formatOfxDate, hp]
  · intro t ha hd hc
    simp only [trnAmtText, ha, hd, hc]
    decide
  · intro t d c ha hd hc hbad
    rcases hbad with h1 | h1
    · rcases h2 : floatOrZero (cleanCurrencyComma c) with _ | cf <;>
        simp [trnAmtText, ha, hd, hc, h1, h2]
    · rcases h2 : floatOrZero (cleanCurrencyComma d) with _ | df <;>
        simp [trnAmtText, ha, hd, hc, h1, h2]

/-- C4 (witness): the amended statement applied to the concrete
unparsable date `"garbage"` and to a transaction with no amount-bearing
field. -/
theorem c4_witness :
    formatOfxDate "garbage".toList = "garbage".toList ++ "120000".toList ∧
    getChildText "DTPOSTED"
      (mkStmtTrn { date := some "garbage".toList }) =
        some ("garbage".toList ++ "120000".toList) ∧
    trnAmtText { date := some "garbage".toList } = "0.00".toList ∧
    trnAmtText { debit := some "5".toList, credit := some "xyz".toList } =
      "0.00".toList :=
  ⟨c4_unparsable_date_echoes_input.1 "garbage".toList (by decide),
   c4_unparsable_date_echoes_input.2.1 { date := some "garbage".toList }
     "garbage".toList rfl (by decide),
   c4_unparsable_date_echoes_input.2.2.1 { date := some "garbage".toList }
     rfl rfl rfl,
   c4_unparsable_date_echoes_input.2.2.2
     { debit := some "5".toList, credit := some "xyz".toList }
     "5".toList "xyz".toList rfl rfl rfl (Or.inr (by decide))⟩

/-! ### C5 -/

/-- C5 (counterexample): the header pass maps the two distinct columns
`"Date"` and `"Post Date"` both to the role `date`, which is neither
`debit` nor `credit` — so a role other than the debit/credit pair is
carried by two columns at once, contradicting the claimed at-most-one
invariant. -/
theorem c5_counterexample :
    detectFromHeaders ["Date".toList, "Post Date".toList] =
      [("Date".toList, dateRole), ("Post Date".toList, dateRole)] ∧
    "Date".toList ≠ "Post Date".toList ∧
    dateRole ≠ debitRole ∧ dateRole ≠ creditRole := by
  decide

/-- Keys of an overwriting dictionary insertion: unchanged when the key
exists, extended by the fresh key otherwise; either way nodup keys stay
nodup. -/
lemma dictInsert_keys_nodup (m : List (Chars × Chars)) (k v : Chars)
    (h : (m.map Prod.fst).Nodup) : ((dictInsert m k v).map Prod.fst).Nodup := by
  unfold dictInsert
  split
  · have heq : (m.map (fun p => if p.1 = k then (k, v) else p)).map Prod.fst =
        m.map Prod.fst := by
      rw [List.map_map]
      refine List.map_congr_left (fun p _ => ?_)
      by_cases hpk : p.1 = k
      · simp [hpk]
      · simp [hpk]
    rw [heq]
    exact h
  · next hany =>
    have hk : k ∉ m.map Prod.fst := by
      intro hmem
      rcases List.mem_map.mp hmem with ⟨p, hp, hpe⟩
      exact hany (List.any_eq_true.mpr ⟨p, hp, by simp [hpe]⟩)
    rw [List.map_append]
    simp [List.nodup_append, h, hk]

/-- The role-to-column fold keeps its keys nodup from any nodup start. -/
lemma typeToColumn_nodup_aux :
    ∀ (l m : List (Chars × Chars)), (m.map Prod.fst).Nodup →
      ((l.foldl (fun m p => dictInsert m p.2 p.1) m).map Prod.fst).Nodup := by
  intro l
  induction l with
  | nil => exact fun m h => h
  | cons p tl ih => exact fun m h => ih _ (dictInsert_keys_nodup _ _ _ h)

/-- C5 (amended): a role assignment maps each column to at most one role
(the detector emits at most one entry per header, so two entries for the
same column always agree), but several columns may carry the same role —
the at-most-one-column-per-role reading only holds of the reverse
type-to-column map the parser builds before creating transactions, whose
keys (the roles) are free of duplicates, the last column in iteration
order winning. -/
theorem c5_role_assignment_shape :
    (∀ (headers : List Chars) (h r r' : Chars),
      (h, r) ∈ detectFromHeaders headers →
      (h, r') ∈ detectFromHeaders headers → r = r') ∧
    (∀ detected : List (Chars × Chars),
      ((typeToColumn detected).map Prod.fst).Nodup) := by
  constructor
  · intro headers h r r' h1 h2
    rcases List.mem_filterMap.mp h1 with ⟨a, _, hfa⟩
    rcases List.mem_filterMap.mp h2 with ⟨b, _, hfb⟩
    rcases Option.map_eq_some'.mp hfa with ⟨ra, hra, hpa⟩
    rcases Option.map_eq_some'.mp hfb with ⟨rb, hrb, hpb⟩
    cases hpa
    cases hpb
    rw [hra] at hrb
    exact Option.some_inj.mp hrb
  · intro detected
    exact typeToColumn_nodup_aux detected [] (by simp)

/-- C5 (witness): the amended statement applied to the one-header list
`["Date"]` and to a concrete one-entry assignment. -/
theorem c5_witness :
    dateRole = dateRole ∧
    ((typeToColumn [("col1".toList, dateRole)]).map Prod.fst).Nodup :=
  ⟨c5_role_assignment_shape.1 ["Date".toList] "Date".toList dateRole dateRole
      (by decide) (by decide),
   c5_role_assignment_shape.2 [("col1".toList, dateRole)]⟩

/-! ### C3 -/

/-- Tag search distributes over forest concatenation. -/
lemma containsTagList_append (tg : String) (l1 l2 : List Node) :
    containsTagList tg (l1 ++ l2) =
      (containsTagList tg l1 || containsTagList tg l2) := by
  induction l1 with
  | nil => simp [containsTagList]
  | cons n rest ih => simp [containsTagList, ih, Bool.or_assoc]

/-- C3 (counterexample): a generation call with the default
configuration — which carries no balance figure; the API has no balance
argument at all — produces a document that does contain a ledger-balance
block and an available-balance block, contradicting the claimed
omit-when-absent contract. -/
theorem c3_counterexample :
    (generateOfx
        [{ date := some "2023-01-01".toList, amount := some "125.50".toList,
           description := some "Grocery store purchase".toList }]
        {} { year := 2024, month := 5, day := 6 }).map
      (fun doc => containsTag "LEDGERBAL" doc && containsTag "AVAILBAL" doc) =
      some true := by
  decide

/-- C3 (amended): the generator accepts no balance figure, and for every
nonempty transaction list the generated statement document always
contains both a ledger-balance block and an available-balance block,
each carrying the hard-coded amount `"0.00"` and the current
timestamp. -/
theorem c3_balance_always_emitted :
    ∀ (txs : List Transaction) (cfg : Config) (now : PyDate), txs ≠ [] →
      ∃ doc, generateOfx txs cfg now = some doc ∧
        containsTag "LEDGERBAL" doc = true ∧ containsTag "AVAILBAL" doc = true ∧
        balanceSections now =
          [Node.mk "LEDGERBAL" none
            [leafN "BALAMT" "0.00".toList, leafN "DTASOF" (strftime14 now)],
           Node.mk "AVAILBAL" none
            [leafN "BALAMT" "0.00".toList, leafN "DTASOF" (strftime14 now)]] := by
  intro txs cfg now h
  have hne : txs.isEmpty = false := by
    cases txs with
    | nil => exact absurd rfl h
    | cons a l => rfl
  refine ⟨Node.mk "OFX" none
      (headerLeaves cfg ++ [signonSection cfg now, bankSection cfg now txs]),
    by simp [generateOfx, hne], ?_, ?_, rfl⟩ <;>
  simp [bankSection, headerLeaves, signonSection, balanceSections,
    containsTag, containsTagList, containsTagList_append, hne, leafN, emptyN]

/-- C3 (witness): the amended statement applied to a concrete singleton
transaction list. -/
theorem c3_witness :
    ∃ doc, generateOfx [{ date := some "2023-01-01".toList }] {}
        { year := 2024, month := 5, day := 6 } = some doc ∧
      containsTag "LEDGERBAL" doc = true ∧ containsTag "AVAILBAL" doc = true ∧
      balanceSections { year := 2024, month := 5, day := 6 } =
        [Node.mk "LEDGERBAL" none
          [leafN "BALAMT" "0.00".toList,
           leafN "DTASOF" (strftime14 { year := 2024, month := 5, day := 6 })],
         Node.mk "AVAILBAL" none
          [leafN "BALAMT" "0.00".toList,
           leafN "DTASOF" (strftime14 { year := 2024, month := 5, day := 6 })]] :=
  c3_balance_always_emitted [{ date := some "2023-01-01".toList }] {}
    { year := 2024, month := 5, day := 6 } (by decide)

/-! ### C6 and C7: how `detect_from_data` treats each column -/

/-- A produced entry is keyed by its column's name. -/
lemma detectColumnEntry_key (state : List (Chars × Chars))
    (col : Chars × List (Option Chars)) (p : Chars × Chars)
    (h : detectColumnEntry state col = some p) : p.1 = col.1 := by
  unfold detectColumnEntry at h
  rcases hs : alookup col.1 state with _ | r
  · rw [hs] at h
    rcases Option.map_eq_some'.mp h with ⟨_, _, hp⟩
    rw [← hp]
  · rw [hs] at h
    cases h
    rfl

/-- Columns absent from the frame get no entry from the data pass. -/
lemma alookup_detectFromData_none (state : List (Chars × Chars)) :
    ∀ (df : Frame) (k : Chars), k ∉ df.map Prod.fst →
      alookup k (detectFromData state df) = none := by
  intro df
  induction df with
  | nil => intro k _; rfl
  | cons hd tl ih =>
    intro k hk
    simp only [List.map_cons, List.mem_cons, not_or] at hk
    obtain ⟨hk1, hk2⟩ := hk
    simp only [detectFromData, List.filterMap_cons] at *
    rcases hcase : detectColumnEntry state hd with _ | p
    · exact ih k hk2
    · have hkey := detectColumnEntry_key state hd p hcase
      simp only [alookup, hkey]
      rw [if_neg (fun hcon => hk1 hcon.symm), ih k hk2]

/-- The data pass, looked up at a column of the frame: a header-assigned
role is copied verbatim, otherwise the column's cells are analyzed. -/
lemma alookup_detectFromData (state : List (Chars × Chars)) :
    ∀ (df : Frame) (name : Chars) (cells : List (Option Chars)),
      (df.map Prod.fst).Nodup → (name, cells) ∈ df →
      alookup name (detectFromData state df) =
        (match alookup name state with
          | some r => some r
          | none => analyzeColumnData cells) := by
  intro df
  induction df with
  | nil => intro name cells _ hmem; cases hmem
  | cons hd tl ih =>
    intro name cells hnd hmem
    have hnd' : (tl.map Prod.fst).Nodup := (List.nodup_cons.mp hnd).2
    rcases List.mem_cons.mp hmem with heq | htl
    · have hknotin : name ∉ tl.map Prod.fst := by
        have := (List.nodup_cons.mp hnd).1
        rw [← heq] at this
        exact this
      subst heq
      simp only [detectFromData, List.filterMap_cons]
      rcases hcase : detectColumnEntry state (name, cells) with _ | p
      · have := alookup_detectFromData_none state tl name hknotin
        simp only [detectFromData] at this
        rw [this]
        unfold detectColumnEntry at hcase
        rcases hs : alookup name state with _ | r
        · rw [hs] at hcase
          rcases ha : analyzeColumnData cells with _ | role
          · rfl
          · rw [ha] at hcase
            cases hcase
        · rw [hs] at hcase
          cases hcase
      · have hkey := detectColumnEntry_key state (name, cells) p hcase
        simp only [alookup, hkey, if_pos]
        unfold detectColumnEntry at hcase
        rcases hs : alookup name state with _ | r
        · rw [hs] at hcase
          rcases Option.map_eq_some'.mp hcase with ⟨role, hrole, hp⟩
          rw [hrole, ← hp]
        · rw [hs] at hcase
          cases hcase
          rfl
    · have hhd : hd.1 ≠ name := by
        intro hcon
        refine (List.nodup_cons.mp hnd).1 ?_
        rw [hcon]
        exact List.mem_map.mpr ⟨(name, cells), htl, rfl⟩
      simp only [detectFromData, List.filterMap_cons]
      rcases hcase : detectColumnEntry state hd with _ | p
      · exact ih name cells hnd' htl
      · have hkey := detectColumnEntry_key state hd p hcase
        simp only [alookup, hkey]
        rw [if_neg hhd]
        exact ih name cells hnd' htl

/-- C6: for every frame with distinct column names and every column of
it already assigned a role by the header pass, the data pass copies the
header-derived role unchanged — data-based inference never overrides a
header assignment. -/
theorem c6_data_pass_preserves_header_roles :
    ∀ (state : List (Chars × Chars)) (df : Frame) (name : Chars)
      (cells : List (Option Chars)) (r : Chars),
      (df.map Prod.fst).Nodup → (name, cells) ∈ df →
      alookup name state = some r →
      alookup name (detectFromData state df) = some r := by
  intro state df name cells r hnd hmem hs
  rw [alookup_detectFromData state df name cells hnd hmem, hs]

/-- C6 (witness): a concrete frame whose column `"A"` is header-assigned
`date` while its cells look like amounts; the data pass keeps `date`. -/
theorem c6_witness :
    alookup "A".toList
      (detectFromData [("A".toList, dateRole)]
        [("A".toList, [some "125.50".toList]), ("B".toList, [some "x".toList])]) =
      some dateRole :=
  c6_data_pass_preserves_header_roles [("A".toList, dateRole)]
    [("A".toList, [some "125.50".toList]), ("B".toList, [some "x".toList])]
    "A".toList [some "125.50".toList] dateRole (by decide) (by decide) (by decide)

/-! ### C7 -/

/-- The column of C7's boundary counterexample: ten non-null values of
which exactly seven (70%) pass the date value test. -/
def c7cells : List (Option Chars) :=
  List.replicate 7 (some "2023-01-01".toList) ++ List.replicate 3 (some "xyz".toList)

/-- C7 (counterexample): at the boundary of exactly 70% date-looking
values (7 of 10 sampled), the data pass assigns no role at all to the
column — the source's comparison is the strict `> 0.7`, so the claimed
inclusive boundary case fails. -/
theorem c7_counterexample :
    ((c7cells.filterMap id).take 100).length = 10 ∧
    (((c7cells.filterMap id).take 100).filter isDateValue).length = 7 ∧
    detectFromData [] [("col1".toList, c7cells)] = [] := by
  decide

/-- C7 (amended): for every column of a distinct-name frame not assigned
from headers in which strictly more than 70% of the up-to-100 sampled
non-null values pass the date value test, the data pass assigns role
`date`; at exactly 70% no date role is assigned. -/
theorem c7_date_threshold_strict :
    ∀ (state : List (Chars × Chars)) (df : Frame) (name : Chars)
      (cells : List (Option Chars)),
      (df.map Prod.fst).Nodup → (name, cells) ∈ df →
      alookup name state = none →
      (cells.filterMap id).isEmpty = false →
      (((cells.filterMap id).take 100).filter isDateValue).length * 10 >
        7 * ((cells.filterMap id).take 100).length →
      alookup name (detectFromData state df) = some dateRole := by
  intro state df name cells hnd hmem hs hne hth
  rw [alookup_detectFromData state df name cells hnd hmem, hs]
  have htot : ((cells.filterMap id).take 100).length > 0 := by
    rcases hl : cells.filterMap id with _ | ⟨a, rest⟩
    · rw [hl] at hne
      simp at hne
    · simp [hl]
  have hdc : isDateColumn (cells.filterMap id) = true := by
    simp only [isDateColumn]
    rw [if_pos htot]
    exact decide_eq_true hth
  simp only [analyzeColumnData, hne, Bool.false_eq_true, if_false, hdc, if_true]

/-- C7 (witness): a concrete column with 8 of 10 sampled values (80%,
strictly above the threshold) passing the date test is assigned
`date`. -/
theorem c7_witness :
    alookup "col1".toList
      (detectFromData []
        [("col1".toList,
          List.replicate 8 (some "2023-01-01".toList) ++
            List.replicate 2 (some "xyz".toList))]) = some dateRole :=
  c7_date_threshold_strict [] _ "col1".toList
    (List.replicate 8 (some "2023-01-01".toList) ++ List.replicate 2 (some "xyz".toList))
    (by decide) (by decide) (by decide) (by decide) (by decide)

/-! ### C9 -/

/-- `digitChar` always yields an ASCII digit. -/
lemma digitChar_isDigit (n : Nat) : isDigitChar (digitChar n) = true := by
  unfold digitChar
  set k := n % 10 with hk
  have hlt : k < 10 := by omega
  interval_cases k <;> decide

/-- Every character of a decimal rendering is a digit. -/
lemma natDecAux_digits : ∀ (fuel n : Nat), ∀ c ∈ natDecAux fuel n, isDigitChar c = true := by
  intro fuel
  induction fuel with
  | zero => intro n c hc; cases hc
  | succ f ih =>
    intro n c hc
    unfold natDecAux at hc
    by_cases h : n < 10
    · rw [if_pos h] at hc
      rw [List.mem_singleton.mp hc]
      exact digitChar_isDigit n
    · rw [if_neg h] at hc
      rcases List.mem_append.mp hc with h1 | h2
      · exact ih _ c h1
      · rw [List.mem_singleton.mp h2]
        exact digitChar_isDigit n

/-- Zero-filling a string no longer than the width gives exactly the
width. -/
lemma zfillN_length (w : Nat) (l : Chars) (h : l.length ≤ w) :
    (zfillN w l).length = w := by
  unfold zfillN
  split
  · next hle => omega
  · simp only [List.length_append, List.length_replicate]
    omega

/-- Zero-filling an all-digit string stays all-digit. -/
lemma zfillN_all (w : Nat) (l : Chars) (hl : l.all isDigitChar = true) :
    (zfillN w l).all isDigitChar = true := by
  unfold zfillN
  split
  · exact hl
  · refine List.all_eq_true.mpr (fun c hc => ?_)
    rcases List.mem_append.mp hc with h1 | h2
    · rw [List.eq_of_mem_replicate h1]
      decide
    · exact List.all_eq_true.mp hl c h2

/-- The identifier core is always an eight-character digit string. -/
lemma fitIdCore_shape (dOpt : Option Chars) (amt : Chars) (descOpt : Option Chars) :
    (fitIdCore dOpt amt descOpt).length = 8 ∧
    (fitIdCore dOpt amt descOpt).all isDigitChar = true := by
  cases dOpt with
  | none =>
    constructor
    · show ("00000000".toList).length = 8
      decide
    · show ("00000000".toList).all isDigitChar = true
      decide
  | some d =>
    simp only [fitIdCore]
    have hdig : (natDecString (hexToNat ((md5Hex (utf8Encode
        (d ++ ('_' :: amt) ++
          (match descOpt with
            | some ds => '_' :: ds
            | none => [])))).take 8))).all isDigitChar = true :=
      List.all_eq_true.mpr (fun c hc => natDecAux_digits 30 _ c hc)
    constructor
    · refine zfillN_length 8 _ ?_
      rw [List.length_take]
      exact Nat.min_le_left _ _
    · refine zfillN_all 8 _ ?_
      refine List.all_eq_true.mpr (fun c hc => ?_)
      exact List.all_eq_true.mp hdig c (List.mem_of_mem_take hc)

/-- C9: the synthetic transaction identifier is a deterministic function
of the (date, chosen amount, description) triple — two transactions
agreeing on those three values receive identical identifiers, whatever
generation run they belong to (the identifier depends on no clock and no
other state) — and it is always a fixed-width eight-character decimal
string. -/
theorem c9_fitid_deterministic_fixed_width :
    (∀ t1 t2 : Transaction, t1.date = t2.date →
      amountForId t1 = amountForId t2 → t1.description = t2.description →
      fitIdText t1 = fitIdText t2) ∧
    (∀ t : Transaction,
      (fitIdText t).length = 8 ∧ (fitIdText t).all isDigitChar = true) := by
  constructor
  · intro t1 t2 h1 h2 h3
    unfold fitIdText
    rw [h1, h2, h3]
  · intro t
    exact fitIdCore_shape t.date (amountForId t) t.description

/-- C9 (witness): a debit-style and an amount-style transaction with the
same (date, chosen amount, description) triple receive the same
identifier, an eight-character digit string. -/
theorem c9_witness :
    fitIdText { date := some "2023-01-01".toList, debit := some "125.50".toList,
                description := some "Grocery".toList } =
      fitIdText { date := some "2023-01-01".toList, amount := some "125.50".toList,
                  description := some "Grocery".toList } ∧
    (fitIdText { date := some "2023-01-01".toList, amount := some "125.50".toList,
                 description := some "Grocery".toList }).length = 8 ∧
    (fitIdText { date := some "2023-01-01".toList, amount := some "125.50".toList,
                 description := some "Grocery".toList }).all isDigitChar = true :=
  ⟨c9_fitid_deterministic_fixed_width.1 _ _ rfl (by decide) rfl,
   (c9_fitid_deterministic_fixed_width.2 _).1,
   (c9_fitid_deterministic_fixed_width.2 _).2⟩

/-! ### C10: the fixed 12:00:00 time component -/

/-- Code point of a digit character. -/
lemma digitChar_toNat (n : Nat) : (digitChar n).toNat = 48 + n % 10 := by
  unfold digitChar
  set k := n % 10 with hk
  have hlt : k < 10 := by omega
  interval_cases k <;> decide

/-- Digit value of a digit character. -/
lemma digitVal_digitChar (n : Nat) : digitVal (digitChar n) = n % 10 := by
  unfold digitVal
  rw [digitChar_toNat]
  omega

/-- Digits are not whitespace. -/
lemma digit_not_space (c : Char) (h : isDigitChar c = true) : isPySpace c = false := by
  unfold isDigitChar at h
  unfold isPySpace
  simp only [Bool.and_eq_true, decide_eq_true_eq] at h
  simp only [Bool.or_eq_false_iff, beq_eq_false_iff_ne]
  omega

/-- `str.strip()` leaves an all-digit string unchanged. -/
lemma pyStrip_digits (l : Chars) (h : ∀ c ∈ l, isDigitChar c = true) :
    pyStrip l = l := by
  have hdrop : ∀ m : Chars, (∀ c ∈ m, isDigitChar c = true) →
      m.dropWhile isPySpace = m := by
    intro m hm
    cases m with
    | nil => rfl
    | cons a rest =>
      simp [List.dropWhile, digit_not_space a (hm a (List.mem_cons_self a rest))]
  unfold pyStrip
  rw [hdrop l h]
  rw [hdrop l.reverse (fun c hc => h c (List.mem_reverse.mp hc))]
  exact List.reverse_reverse l

/-- Characters of `strftime("%Y%m%d")` output are digits. -/
lemma strftime8_digits (d : PyDate) : ∀ c ∈ strftime8 d, isDigitChar c = true := by
  intro c hc
  simp only [strftime8, pad4, pad2, List.cons_append, List.nil_append,
    List.mem_cons, List.mem_singleton] at hc
  rcases hc with rfl | rfl | rfl | rfl | rfl | rfl | rfl | hc
  · exact digitChar_isDigit _
  · exact digitChar_isDigit _
  · exact digitChar_isDigit _
  · exact digitChar_isDigit _
  · exact digitChar_isDigit _
  · exact digitChar_isDigit _
  · exact digitChar_isDigit _
  · rcases hc with rfl | hc
    · exact digitChar_isDigit _
    · cases hc

/-- Matching `%Y` against four rendered digits. -/
lemma dirMatches_year_pad4 (y : Nat) (hy : y ≤ 9999) (rest : Chars) :
    dirMatches .year (pad4 y ++ rest) = [(y, rest)] := by
  simp only [pad4, List.cons_append, List.nil_append, dirMatches,
    digitChar_isDigit, Bool.and_self, if_pos, digitVal_digitChar]
  have : (y / 1000 % 10) * 1000 + (y / 100 % 10) * 100 + (y / 10 % 10) * 10 + y % 10 = y := by
    omega
  rw [this]

/-- Matching `%m` against two rendered digits: the month value is the
regex's first candidate, so a succeeding continuation on the remainder
settles the backtracking search. -/
lemma tryCands_month_pad2 {α} (m : Nat) (h1 : 1 ≤ m) (h2 : m ≤ 12) (rest : Chars)
    (k : Nat → Chars → Option α) (res : α) (hk : k m rest = some res) :
    tryCands (dirMatches .month (pad2 m ++ rest)) k = some res := by
  interval_cases m <;>
    simp [pad2, dirMatches, digitChar_toNat, digitVal_digitChar, tryCands,
      isDigitChar, hk]

/-- Matching `%d` against two rendered digits, as for `%m`. -/
lemma tryCands_day_pad2 {α} (n : Nat) (h1 : 1 ≤ n) (h2 : n ≤ 31) (rest : Chars)
    (k : Nat → Chars → Option α) (res : α) (hk : k n rest = some res) :
    tryCands (dirMatches .dayD (pad2 n ++ rest)) k = some res := by
  interval_cases n <;>
    simp [pad2, dirMatches, digitChar_toNat, digitVal_digitChar, tryCands,
      isDigitChar, hk]

/-- The backtracking search fails when every candidate's continuation
fails. -/
lemma tryCands_none {α} (cs : List (Nat × Chars)) (k : Nat → Chars → Option α)
    (h : ∀ vr ∈ cs, k vr.1 vr.2 = none) : tryCands cs k = none := by
  induction cs with
  | nil => rfl
  | cons vr rest ih =>
    obtain ⟨v, r⟩ := vr
    have hh := h (v, r) (List.mem_cons_self _ _)
    simp only [tryCands, hh]
    exact ih (fun vr hm => h vr (List.mem_cons_of_mem _ hm))

/-- A digit's code point differs from any code point outside 48..57. -/
lemma digit_toNat_ne (c : Char) (h : isDigitChar c = true) (n : Nat)
    (hn : n < 48 ∨ 57 < n) : (c.toNat == n) = false := by
  simp only [isDigitChar, Bool.and_eq_true, decide_eq_true_eq] at h
  simp only [beq_eq_false_iff_ne]
  omega

/-- A non-whitespace literal directive fails on a mismatching head. -/
lemma runFmt_lit_fail (sep : Char) (hs : isPySpace sep = false) (x : Char)
    (xs : Chars) (hne : (x.toNat == sep.toNat) = false) (ds : List Dir)
    (p : PyDate) : runFmt (.lit sep :: ds) (x :: xs) p = none := by
  show tryCands (dirMatches (.lit sep) (x :: xs)) _ = none
  simp [dirMatches, hs, hne, tryCands]

/-- Every `%m`/`%d` candidate on a two-headed input consumes one or two
characters. -/
lemma dirMatches_md_rests (dir : Dir) (hd : dir = .month ∨ dir = .dayD)
    (x0 x1 : Char) (xs : Chars) :
    ∀ vr ∈ dirMatches dir (x0 :: x1 :: xs), vr.2 = x1 :: xs ∨ vr.2 = xs := by
  rcases hd with rfl | rfl <;>
  · intro vr h
    simp only [dirMatches] at h
    rcases List.mem_append.mp h with h1 | h2
    · rcases List.mem_append.mp h1 with h3 | h4
      · split_ifs at h3 <;> simp_all
      · split_ifs at h4 <;> simp_all
    · split_ifs at h2 <;> simp_all

/-- A month-first or day-first format with a separator fails on three or
more leading digits. -/
lemma runFmt_md_sep_fail (dir : Dir) (hdir : dir = .month ∨ dir = .dayD)
    (sep : Char) (hs : isPySpace sep = false) (x0 x1 x2 : Char) (xs : Chars)
    (hn1 : (x1.toNat == sep.toNat) = false)
    (hn2 : (x2.toNat == sep.toNat) = false) (ds : List Dir) (p : PyDate) :
    runFmt (dir :: .lit sep :: ds) (x0 :: x1 :: x2 :: xs) p = none := by
  have hshape : ∀ vr ∈ dirMatches dir (x0 :: x1 :: x2 :: xs),
      vr.2 = x1 :: x2 :: xs ∨ vr.2 = x2 :: xs :=
    dirMatches_md_rests dir hdir x0 x1 (x2 :: xs)
  rcases hdir with rfl | rfl <;>
  · refine tryCands_none _ _ (fun vr hm => ?_)
    rcases hshape vr hm with he | he <;> rw [he]
    · exact runFmt_lit_fail sep hs x1 _ hn1 ds _
    · exact runFmt_lit_fail sep hs x2 xs hn2 ds _

/-- A year-first format with a separator fails on five or more leading
digits. -/
lemma runFmt_year_sep_fail (sep : Char) (hs : isPySpace sep = false)
    (y1 y2 y3 y4 x : Char) (xs : Chars) (hne : (x.toNat == sep.toNat) = false)
    (ds : List Dir) (p : PyDate) :
    runFmt (.year :: .lit sep :: ds) (y1 :: y2 :: y3 :: y4 :: x :: xs) p = none := by
  refine tryCands_none _ _ (fun vr hm => ?_)
  simp only [dirMatches] at hm
  split_ifs at hm with hcond
  · have : vr.2 = x :: xs := by
      rw [List.mem_singleton.mp hm]
    rw [this]
    exact runFmt_lit_fail sep hs x xs hne ds _
  · cases hm

/-- `strptime` fails whenever its compiled regex fails. -/
lemma strptime_none_of_runFmt (fmt : List Dir) (s : Chars)
    (h : runFmt fmt s { year := 1900, month := 1, day := 1 } = none) :
    strptime fmt s = none := by
  simp [strptime, h]

/-- The field bounds packed in `validDate`. -/
lemma validDate_bounds (d : PyDate) (h : validDate d = true) :
    1 ≤ d.year ∧ d.year ≤ 9999 ∧ 1 ≤ d.month ∧ d.month ≤ 12 ∧ 1 ≤ d.day ∧
      d.day ≤ daysInMonth d.year d.month := by
  simp only [validDate, Bool.and_eq_true, decide_eq_true_eq] at h
  tauto

/-- No month is longer than 31 days. -/
lemma daysInMonth_le (y m : Nat) : daysInMonth y m ≤ 31 := by
  unfold daysInMonth
  split_ifs <;> omega

/-- Parsing `"%Y%m%d"` back from `strftime("%Y%m%d")` output recovers
the calendar date, with the time fields at their zero defaults. -/
lemma strptime_compact_strftime8 (d : PyDate) (h : validDate d = true) :
    strptime fmtYmdCompact (strftime8 d) =
      some { year := d.year, month := d.month, day := d.day } := by
  obtain ⟨hy1, hy2, hm1, hm2, hd1, hdm⟩ := validDate_bounds d h
  have hd31 : d.day ≤ 31 := le_trans hdm (daysInMonth_le _ _)
  have h3 : runFmt [Dir.dayD] (pad2 d.day ++ [])
      { year := d.year, month := d.month, day := 1 } =
      some ({ year := d.year, month := d.month, day := d.day }, []) :=
    tryCands_day_pad2 d.day hd1 hd31 [] _ _ rfl
  have h2 : runFmt [Dir.month, Dir.dayD] (pad2 d.month ++ pad2 d.day)
      { year := d.year, month := 1, day := 1 } =
      some ({ year := d.year, month := d.month, day := d.day }, []) := by
    refine tryCands_month_pad2 d.month hm1 hm2 (pad2 d.day) _ _ ?_
    simpa using h3
  have hrun : runFmt fmtYmdCompact (strftime8 d)
      { year := 1900, month := 1, day := 1 } =
      some ({ year := d.year, month := d.month, day := d.day }, []) := by
    have hsplit : strftime8 d = pad4 d.year ++ (pad2 d.month ++ pad2 d.day) := by
      simp [strftime8, List.append_assoc]
    show tryCands (dirMatches .year (strftime8 d)) _ = _
    rw [hsplit, dirMatches_year_pad4 d.year hy2]
    simp only [tryCands, applyDir]
    rw [h2]
  have hv : validDate { year := d.year, month := d.month, day := d.day } = true := by
    simp only [validDate, Bool.and_eq_true, decide_eq_true_eq]
    refine ⟨⟨⟨⟨⟨⟨⟨⟨?_, ?_⟩, ?_⟩, ?_⟩, ?_⟩, ?_⟩, ?_⟩, ?_⟩, ?_⟩ <;> omega
  simp [strptime, hrun, hv]

/-- On `strftime("%Y%m%d")` output (eight digits), the first six formats
of the generator's list all fail at their separator, and the seventh —
`"%Y%m%d"` — recovers the date: `_parse_date` and the parsing loop of
`_format_ofx_date` return the rendered calendar date itself. -/
lemma parseDateGen_strftime8 (d : PyDate) (h : validDate d = true) :
    parseDateGen (strftime8 d) =
      some { year := d.year, month := d.month, day := d.day } := by
  have hstrip : pyStrip (strftime8 d) = strftime8 d :=
    pyStrip_digits _ (strftime8_digits d)
  have hshape : strftime8 d = digitChar (d.year / 1000) :: digitChar (d.year / 100) ::
      digitChar (d.year / 10) :: digitChar d.year :: digitChar (d.month / 10) ::
      digitChar d.month :: digitChar (d.day / 10) :: digitChar d.day :: [] := by
    simp [strftime8, pad4, pad2]
  have hdashne : ∀ c : Char, isDigitChar c = true → (c.toNat == ('-').toNat) = false :=
    fun c hc => digit_toNat_ne c hc _ (by decide)
  have hslashne : ∀ c : Char, isDigitChar c = true → (c.toNat == ('/').toNat) = false :=
    fun c hc => digit_toNat_ne c hc _ (by decide)
  have f1 : strptime fmtYmdDash (strftime8 d) = none := by
    refine strptime_none_of_runFmt _ _ ?_
    rw [hshape]
    exact runFmt_year_sep_fail '-' (by decide) _ _ _ _ _ _
      (hdashne _ (digitChar_isDigit _)) _ _
  have f2 : strptime fmtMdySlash (strftime8 d) = none := by
    refine strptime_none_of_runFmt _ _ ?_
    rw [hshape]
    exact runFmt_md_sep_fail .month (Or.inl rfl) '/' (by decide) _ _ _ _
      (hslashne _ (digitChar_isDigit _)) (hslashne _ (digitChar_isDigit _)) _ _
  have f3 : strptime fmtDmySlash (strftime8 d) = none := by
    refine strptime_none_of_runFmt _ _ ?_
    rw [hshape]
    exact runFmt_md_sep_fail .dayD (Or.inr rfl) '/' (by decide) _ _ _ _
      (hslashne _ (digitChar_isDigit _)) (hslashne _ (digitChar_isDigit _)) _ _
  have f4 : strptime fmtYmdSlash (strftime8 d) = none := by
    refine strptime_none_of_runFmt _ _ ?_
    rw [hshape]
    exact runFmt_year_sep_fail '/' (by decide) _ _ _ _ _ _
      (hslashne _ (digitChar_isDigit _)) _ _
  have f5 : strptime fmtMdyDash (strftime8 d) = none := by
    refine strptime_none_of_runFmt _ _ ?_
    rw [hshape]
    exact runFmt_md_sep_fail .month (Or.inl rfl) '-' (by decide) _ _ _ _
      (hdashne _ (digitChar_isDigit _)) (hdashne _ (digitChar_isDigit _)) _ _
  have f6 : strptime fmtDmyDash (strftime8 d) = none := by
    refine strptime_none_of_runFmt _ _ ?_
    rw [hshape]
    exact runFmt_md_sep_fail .dayD (Or.inr rfl) '-' (by decide) _ _ _ _
      (hdashne _ (digitChar_isDigit _)) (hdashne _ (digitChar_isDigit _)) _ _
  have f7 := strptime_compact_strftime8 d h
  simp only [parseDateGen, GEN_DATE_FORMATS, hstrip, List.findSome?_cons,
    f1, f2, f3, f4, f5, f6, f7]

/-- A parsed `strptime` result passed the `datetime` validation. -/
lemma strptime_validDate (fmt : List Dir) (s : Chars) (p : PyDate)
    (h : strptime fmt s = some p) : validDate p = true := by
  unfold strptime at h
  split at h
  · split at h
    · cases h
      assumption
    · cases h
  · cases h

/-- A `_parse_date` result passed the `datetime` validation. -/
lemma parseDateGen_validDate (s : Chars) (p : PyDate)
    (h : parseDateGen s = some p) : validDate p = true := by
  obtain ⟨fmt, _, hf⟩ := List.exists_of_findSome?_eq_some h
  exact strptime_validDate fmt (pyStrip s) p hf

/-- Python `min` over a nonempty list picks an element of the list. -/
lemma minDate_mem (p : PyDate) (ps : List PyDate) : minDate p ps ∈ p :: ps := by
  induction ps generalizing p with
  | nil => exact List.mem_singleton.mpr rfl
  | cons x xs ih =>
    show minDate (if dtLe p x then p else x) xs ∈ p :: x :: xs
    rcases List.mem_cons.mp (ih (if dtLe p x then p else x)) with he | hm
    · rw [he]
      split
      · exact List.mem_cons_self _ _
      · exact List.mem_cons_of_mem _ (List.mem_cons_self _ _)
    · exact List.mem_cons_of_mem _ (List.mem_cons_of_mem _ hm)

/-- Python `max` over a nonempty list picks an element of the list. -/
lemma maxDate_mem (p : PyDate) (ps : List PyDate) : maxDate p ps ∈ p :: ps := by
  induction ps generalizing p with
  | nil => exact List.mem_singleton.mpr rfl
  | cons x xs ih =>
    show maxDate (if dtLe x p then p else x) xs ∈ p :: x :: xs
    rcases List.mem_cons.mp (ih (if dtLe x p then p else x)) with he | hm
    · rw [he]
      split
      · exact List.mem_cons_self _ _
      · exact List.mem_cons_of_mem _ (List.mem_cons_self _ _)
    · exact List.mem_cons_of_mem _ (List.mem_cons_of_mem _ hm)

/-- `_get_earliest_date` always returns `strftime("%Y%m%d")` of some
validated date (a parsed transaction date or the current date). -/
lemma getEarliestDate_shape (txs : List Transaction) (now : PyDate)
    (hnow : validDate now = true) :
    ∃ e, validDate e = true ∧ getEarliestDate txs now = strftime8 e := by
  simp only [getEarliestDate]
  split
  · exact ⟨now, hnow, rfl⟩
  · split
    · exact ⟨now, hnow, rfl⟩
    · next p ps hp =>
      refine ⟨minDate p ps, ?_, rfl⟩
      have hmem : minDate p ps ∈ p :: ps := minDate_mem p ps
      rw [← hp] at hmem
      obtain ⟨s, _, hs⟩ := List.mem_filterMap.mp hmem
      exact parseDateGen_validDate s _ hs

/-- `_get_latest_date` always returns `strftime("%Y%m%d")` of some
validated date. -/
lemma getLatestDate_shape (txs : List Transaction) (now : PyDate)
    (hnow : validDate now = true) :
    ∃ e, validDate e = true ∧ getLatestDate txs now = strftime8 e := by
  simp only [getLatestDate]
  split
  · exact ⟨now, hnow, rfl⟩
  · split
    · exact ⟨now, hnow, rfl⟩
    · next p ps hp =>
      refine ⟨maxDate p ps, ?_, rfl⟩
      have hmem : maxDate p ps ∈ p :: ps := maxDate_mem p ps
      rw [← hp] at hmem
      obtain ⟨s, _, hs⟩ := List.mem_filterMap.mp hmem
      exact parseDateGen_validDate s _ hs

/-- C10: for every date string that parses under one of the seven
accepted formats, `_format_ofx_date` returns the parsed calendar date
rendered as `%Y%m%d` followed by the fixed time component `"120000"`
(12:00:00 noon); consequently the per-transaction posted-date and
user-date fields, and the transaction-list start/end dates (which pass
through `strftime("%Y%m%d")` and re-parse under the seventh format),
all carry the 12:00:00 time regardless of the input. -/
theorem c10_formatter_fixed_noon :
    (∀ (s : Chars) (d : PyDate), parseDateGen s = some d →
      formatOfxDate s = strftime8 d ++ "120000".toList) ∧
    (∀ (t : Transaction) (s : Chars) (d : PyDate), t.date = some s →
      parseDateGen s = some d →
      getChildText "DTPOSTED" (mkStmtTrn t) =
        some (strftime8 d ++ "120000".toList) ∧
      getChildText "DTUSER" (mkStmtTrn t) =
        some (strftime8 d ++ "120000".toList)) ∧
    (∀ d : PyDate, validDate d = true →
      formatOfxDate (strftime8 d) = strftime8 d ++ "120000".toList) ∧
    (∀ (txs : List Transaction) (now : PyDate), validDate now = true →
      (∃ e, formatOfxDate (getEarliestDate txs now) =
        strftime8 e ++ "120000".toList) ∧
      (∃ e, formatOfxDate (getLatestDate txs now) =
        strftime8 e ++ "120000".toList)) := by
  have hfmt : ∀ (s : Chars) (d : PyDate), parseDateGen s = some d →
      formatOfxDate s = strftime8 d ++ "120000".toList := by
    intro s d hp
    simp [formatOfxDate, hp]
  have hself : ∀ d : PyDate, validDate d = true →
      formatOfxDate (strftime8 d) = strftime8 d ++ "120000".toList := by
    intro d hv
    rw [hfmt (strftime8 d) _ (parseDateGen_strftime8 d hv)]
    simp [strftime8]
  refine ⟨hfmt, ?_, hself, ?_⟩
  · intro t s d ht hp
    constructor <;>
      simp [mkStmtTrn, getChildText, Node.children, ht, leafN, Node.tag,
        List.find?, Node.text, hfmt s d hp]
  · intro txs now hnow
    constructor
    · obtain ⟨e, hv, he⟩ := getEarliestDate_shape txs now hnow
      exact ⟨e, by rw [he, hself e hv]⟩
    · obtain ⟨e, hv, he⟩ := getLatestDate_shape txs now hnow
      exact ⟨e, by rw [he, hself e hv]⟩

/-- C10 (witness): the concrete date `"2023-01-05"` parses under the
first format and is emitted as `"20230105120000"`, also as the
DTPOSTED/DTUSER texts; the rendered form `"20230105"` re-parses and
keeps the noon time; start/end dates of a concrete generation carry the
suffix too. -/
theorem c10_witness :
    formatOfxDate "2023-01-05".toList =
      strftime8 { year := 2023, month := 1, day := 5 } ++ "120000".toList ∧
    getChildText "DTPOSTED" (mkStmtTrn { date := some "2023-01-05".toList }) =
      some (strftime8 { year := 2023, month := 1, day := 5 } ++ "120000".toList) ∧
    formatOfxDate (strftime8 { year := 2023, month := 1, day := 5 }) =
      strftime8 { year := 2023, month := 1, day := 5 } ++ "120000".toList ∧
    (∃ e, formatOfxDate
        (getEarliestDate [{ date := some "2023-01-05".toList }]
          { year := 2024, month := 5, day := 6 }) =
      strftime8 e ++ "120000".toList) :=
  ⟨c10_formatter_fixed_noon.1 "2023-01-05".toList _ (by decide),
   (c10_formatter_fixed_noon.2.1 { date := some "2023-01-05".toList }
      "2023-01-05".toList _ rfl (by decide)).1,
   c10_formatter_fixed_noon.2.2.1 { year := 2023, month := 1, day := 5 } (by decide),
   (c10_formatter_fixed_noon.2.2.2 [{ date := some "2023-01-05".toList }]
      { year := 2024, month := 5, day := 6 } (by decide)).1⟩

end File2Ofx
